import Mathlib

/-!
Shallow embedding of the quiz-file validator (the `validateQuizFile`,
`validateMetadata` and `validateQuestions` functions of the VS Code
extension) together with proofs about its diagnostic output.

JSON values are modelled by the inductive `Json`; JavaScript machine
numbers are modelled by `Int` (every value the validator compares is an
integer index or length).  JavaScript truthiness, strict equality with
string/number literals, and template-string rendering are modelled
explicitly (`truthy`, `typeIs`, `isNumEq`, `jsToString`).  Property
access on a missing key yields `none` (JavaScript `undefined`); property
access on `null` throws, which the embedding models where it can occur
(the top-level value, and a `null` element of the `questions` array).
-/

/-- Generic JSON value, as produced by `JSON.parse`. -/
inductive Json where
  | null : Json
  | bool : Bool → Json
  | num : Int → Json
  | str : String → Json
  | arr : List Json → Json
  | obj : List (String × Json) → Json
deriving Repr

/-- JavaScript truthiness of a value. -/
def truthy : Json → Bool
  | Json.null => false
  | Json.bool b => b
  | Json.num n => n != 0
  | Json.str s => s != ""
  | Json.arr _ => true
  | Json.obj _ => true

/-- Truthiness of a property-access result; a missing property
(JavaScript `undefined`) is falsy. -/
def truthyOpt : Option Json → Bool
  | none => false
  | some j => truthy j

/-- First binding of a key in an object's field list. -/
def lookupField : List (String × Json) → String → Option Json
  | [], _ => none
  | (k, v) :: rest, key => if k == key then some v else lookupField rest key

/-- Property access `j[key]`: `none` models JavaScript `undefined`. -/
def Json.get : Json → String → Option Json
  | Json.obj fields, key => lookupField fields key
  | _, _ => none

mutual
/-- JavaScript template-string rendering `${v}` of a value. -/
def jsToString : Json → String
  | Json.null => "null"
  | Json.bool b => if b then "true" else "false"
  | Json.num n => toString n
  | Json.str s => s
  | Json.obj _ => "[object Object]"
  | Json.arr xs => String.intercalate "," (jsElems xs)

/-- Array elements as rendered by JavaScript `Array.prototype.toString`
(a `null` element renders as the empty string). -/
def jsElems : List Json → List String
  | [] => []
  | Json.null :: rest => "" :: jsElems rest
  | j :: rest => jsToString j :: jsElems rest
end

/-- Rendering of a property-access result (`undefined` renders as the
string `undefined`). -/
def jsOptToString : Option Json → String
  | none => "undefined"
  | some j => jsToString j

/-- Diagnostic severities used by the validator. -/
inductive Severity where
  | error : Severity
  | warning : Severity
deriving Repr, DecidableEq

/-- One diagnostic: message, severity and `source` tag (source-position
ranges carry no validation content and are not modelled). -/
structure Diagnostic where
  message : String
  severity : Severity
  source : String
deriving Repr, DecidableEq

/-- Diagnostic from the structural validator / rule engine. -/
def vdiag (msg : String) : Diagnostic := ⟨msg, Severity.error, "quiz-validator"⟩

/-- Warning diagnostic from the structural validator / rule engine. -/
def wdiag (msg : String) : Diagnostic := ⟨msg, Severity.warning, "quiz-validator"⟩

/-! Message texts, kept letter for letter as the source builds them. -/

def missingMetaFieldMsg (field : String) : String :=
  "Missing required property: metadata." ++ field

def metaTypeMsg (field : String) : String :=
  "metadata." ++ field ++ " must be a string"

/-- The `Question <i>: ` prefix of every per-question message. -/
def qpre (n : Nat) : String := "Question " ++ toString n ++ ": "

def missingTypeMsg (n : Nat) : String := qpre n ++ "Missing required property: type"

def invalidTypeMsg (n : Nat) (t : String) : String :=
  qpre n ++ ("Invalid question type \x27" ++
    (t ++ "\x27. Supported types: multiple_choice, single_choice, true_false"))

def missingTextMsg (n : Nat) : String := qpre n ++ "Missing required property: text"

def textStringMsg (n : Nat) : String := qpre n ++ "text must be a string"

def missingOptionsMsg (n : Nat) : String := qpre n ++ "Missing required property: options"

def optionsArrayMsg (n : Nat) : String := qpre n ++ "options must be an array"

def tfTwoOptionsMsg (n : Nat) : String :=
  qpre n ++ "true_false questions must have exactly 2 options"

def atLeastTwoMsg (n : Nat) (t : String) : String :=
  qpre n ++ (t ++ " questions must have at least 2 options")

def missingCaMsg (n : Nat) : String :=
  qpre n ++ "Missing required property: correct_answers"

def caNullMsg (n : Nat) : String := qpre n ++ "correct_answers cannot be null"

def caArrayMsg (n : Nat) : String := qpre n ++ "correct_answers must be an array"

def caEmptyMsg (n : Nat) : String := qpre n ++ "correct_answers cannot be empty"

def exactlyOneMsg (n : Nat) (t : String) : String :=
  qpre n ++ (t ++ " questions must have exactly one correct answer")

def invalidIndexMsg (n : Nat) (v r : String) : String :=
  qpre n ++ ("correct_answers contains invalid index " ++
    (v ++ (". Valid range: 0-" ++ r)))

def tfDomainMsg (n : Nat) : String :=
  qpre n ++ "true_false questions must have correct_answers index 0 or 1"

/-! The validator itself. -/

/-- Per-field metadata check: `if (!metadata[field]) { missing } else if
(typeof metadata[field] !== 'string') { must be a string }`. -/
def metadataFieldDiags (field : String) (v : Option Json) : List Diagnostic :=
  if truthyOpt v = false then [vdiag (missingMetaFieldMsg field)]
  else match v with
    | some (Json.str _) => []
    | _ => [vdiag (metaTypeMsg field)]

def requiredFields : List String := ["title", "description", "version", "author"]

/-- `validateMetadata`: the four required fields, in order. -/
def validateMetadata (metadata : Json) : List Diagnostic :=
  (requiredFields.map (fun f => metadataFieldDiags f (metadata.get f))).flatten

def validQuestionTypes : List String := ["multiple_choice", "single_choice", "true_false"]

/-- `['multiple_choice','single_choice','true_false'].includes(question.type)`. -/
def recognizedOpt (tval : Option Json) : Bool :=
  match tval with
  | some (Json.str s) => validQuestionTypes.contains s
  | _ => false

/-- JavaScript strict equality `question.type === s` for a string literal `s`. -/
def typeIs (tval : Option Json) (s : String) : Bool :=
  match tval with
  | some (Json.str t) => t == s
  | _ => false

/-- JavaScript strict equality `v === k` for a number literal `k`. -/
def isNumEq (v : Json) (k : Int) : Bool :=
  match v with
  | Json.num m => m == k
  | _ => false

/-- `if (!question.type) {...} else if (!recognized) {...}`. -/
def typeCheckDiags (n : Nat) (tval : Option Json) : List Diagnostic :=
  if truthyOpt tval = false then [vdiag (missingTypeMsg n)]
  else if recognizedOpt tval = false then [vdiag (invalidTypeMsg n (jsOptToString tval))]
  else []

/-- `if (!question.text) {...} else if (typeof text !== 'string') {...}`. -/
def textCheckDiags (n : Nat) (xval : Option Json) : List Diagnostic :=
  if truthyOpt xval = false then [vdiag (missingTextMsg n)]
  else match xval with
    | some (Json.str _) => []
    | _ => [vdiag (textStringMsg n)]

/-- The `options` presence/shape/count block (runs only for recognized types). -/
def optionsBlockDiags (n : Nat) (tval oval : Option Json) : List Diagnostic :=
  if truthyOpt oval = false then [vdiag (missingOptionsMsg n)]
  else match oval with
    | some (Json.arr opts) =>
      if typeIs tval "true_false" then
        if opts.length != 2 then [vdiag (tfTwoOptionsMsg n)] else []
      else if opts.length < 2 then [wdiag (atLeastTwoMsg n (jsOptToString tval))] else []
    | _ => [vdiag (optionsArrayMsg n)]

/-- `typeof v === 'number' && v >= 0 && v < optsLen`. -/
def validIndex (optsLen : Nat) (v : Json) : Bool :=
  match v with
  | Json.num k => (0 ≤ k && k < (optsLen : Int))
  | _ => false

/-- One loop iteration of the range check over `correct_answers`. -/
def indexEntryDiags (n : Nat) (optsLen : Nat) (v : Json) : List Diagnostic :=
  if validIndex optsLen v then []
  else [vdiag (invalidIndexMsg n (jsToString v) (toString ((optsLen : Int) - 1)))]

/-- The `correct_answers` presence/shape block and, when the shape checks
pass, the cardinality, index-range and true_false-domain checks. -/
def caBlockDiags (n : Nat) (tval oval caval : Option Json) : List Diagnostic :=
  if truthyOpt caval = false then [vdiag (missingCaMsg n)]
  else if (match caval with | some Json.null => true | _ => false) then
    [vdiag (caNullMsg n)]
  else match caval with
    | some (Json.arr ca) =>
      if ca.length == 0 then [vdiag (caEmptyMsg n)]
      else
        (if (typeIs tval "single_choice" || typeIs tval "true_false") && ca.length != 1 then
           [vdiag (exactlyOneMsg n (jsOptToString tval))]
         else [])
        ++ (match oval with
            | some (Json.arr opts) =>
              (ca.flatMap (indexEntryDiags n opts.length))
              ++ (if typeIs tval "true_false" then
                    match ca with
                    | [v] => if isNumEq v 0 || isNumEq v 1 then [] else [vdiag (tfDomainMsg n)]
                    | _ => []
                  else [])
            | _ => [])
    | _ => [vdiag (caArrayMsg n)]

/-- All diagnostics of one question (message index `n` is 1-based).  The
options and correct_answers blocks run only when the type is recognized. -/
def questionDiags (n : Nat) (q : Json) : List Diagnostic :=
  typeCheckDiags n (q.get "type") ++ textCheckDiags n (q.get "text") ++
  (if recognizedOpt (q.get "type") then
    optionsBlockDiags n (q.get "type") (q.get "options")
      ++ caBlockDiags n (q.get "type") (q.get "options") (q.get "correct_answers")
  else [])

/-- `questions.forEach(...)`, threading the 1-based message index.  A
`null` element throws a TypeError at `question.type` in the source; the
second component records that the loop aborted there. -/
def processQuestions : Nat → List Json → List Diagnostic × Bool
  | _, [] => ([], false)
  | _, Json.null :: _ => ([], true)
  | n, q :: rest =>
    let r := processQuestions (n + 1) rest
    (questionDiags n q ++ r.1, r.2)

/-- `validateQuestions`: array check, then the per-question loop. -/
def validateQuestions (questions : Json) : List Diagnostic × Bool :=
  match questions with
  | Json.arr qs => processQuestions 1 qs
  | _ => ([vdiag "questions must be an array"], false)

/-- One schema-violation record from the external schema engine. -/
structure SchemaError where
  instancePath : String
  message : String

/-- `formatSchemaError`: `${error.instancePath || 'Root'}: ${error.message}`. -/
def formatSchemaError (e : SchemaError) : String :=
  (if e.instancePath == "" then "Root" else e.instancePath) ++ ": " ++ e.message

/-- The optional schema layer: skipped when no schema was loaded. -/
def schemaDiags (schemaValidate : Option (Json → List SchemaError)) (quiz : Json) :
    List Diagnostic :=
  match schemaValidate with
  | none => []
  | some f => (f quiz).map (fun e => ⟨formatSchemaError e, Severity.error, "quiz-schema"⟩)

/-- Message of the TypeError raised by a property access on `null`,
wrapped by the catch handler of `validateQuizFile`. -/
def nullAccessMsg (prop : String) : String :=
  "Invalid JSON: Cannot read properties of null (reading \x27" ++ prop ++ "\x27)"

/-- Body of `validateQuizFile` after a successful parse: metadata block,
questions block, then the optional schema layer.  A thrown TypeError
(top-level `null`, or a `null` question) lands in the catch handler,
which appends its message to the diagnostics pushed so far. -/
def validateDoc (schemaValidate : Option (Json → List SchemaError)) (quiz : Json) :
    List Diagnostic :=
  match quiz with
  | Json.null => [vdiag (nullAccessMsg "metadata")]
  | _ =>
    let metaDiags :=
      if truthyOpt (quiz.get "metadata") = false then
        [vdiag "Missing required property: metadata"]
      else validateMetadata ((quiz.get "metadata").getD Json.null)
    let qres :=
      if truthyOpt (quiz.get "questions") = false then
        ([vdiag "Missing required property: questions"], false)
      else validateQuestions ((quiz.get "questions").getD Json.null)
    if qres.2 then metaDiags ++ qres.1 ++ [vdiag (nullAccessMsg "type")]
    else metaDiags ++ qres.1 ++ schemaDiags schemaValidate quiz

/-- `validateQuizFile` on a document text, represented by the outcome of
`JSON.parse` on it: a parse failure yields the single InvalidJSON
diagnostic, a parsed value goes through the full pipeline. -/
def validateQuizFile (schemaValidate : Option (Json → List SchemaError))
    (parsed : Except String Json) : List Diagnostic :=
  match parsed with
  | Except.error msg => [vdiag ("Invalid JSON: " ++ msg)]
  | Except.ok quiz => validateDoc schemaValidate quiz

/-! Concrete documents and questions used to evaluate the validator. -/

/-- Minimal valid document: metadata with the four string fields and one
multiple_choice question with 4 options and `correct_answers: [1]`. -/
def docMinimal : Json := Json.obj [
  ("metadata", Json.obj [("title", Json.str "Sample Quiz"),
    ("description", Json.str "A quiz"), ("version", Json.str "1.0.0"),
    ("author", Json.str "Quiz Author")]),
  ("questions", Json.arr [Json.obj [
    ("type", Json.str "multiple_choice"),
    ("text", Json.str "What is the capital of France?"),
    ("options", Json.arr [Json.str "Madrid", Json.str "Paris",
      Json.str "Rome", Json.str "Berlin"]),
    ("correct_answers", Json.arr [Json.num 1])]])]

/-- Document with valid metadata and an empty questions array. -/
def docEmptyQuestions : Json := Json.obj [
  ("metadata", Json.obj [("title", Json.str "T"), ("description", Json.str "D"),
    ("version", Json.str "1.0"), ("author", Json.str "A")]),
  ("questions", Json.arr [])]

/-- Question whose `correct_answers` is JSON `null`. -/
def qNullCa : Json := Json.obj [
  ("type", Json.str "multiple_choice"), ("text", Json.str "Q"),
  ("options", Json.arr [Json.str "a", Json.str "b"]),
  ("correct_answers", Json.null)]

/-- Question with an unrecognized type and no options/correct_answers. -/
def qEssay : Json := Json.obj [("type", Json.str "essay"), ("text", Json.str "Hello")]

/-- Metadata object whose title is the (falsy) number 0. -/
def mZeroTitle : Json := Json.obj [("title", Json.num 0),
  ("description", Json.str "d"), ("version", Json.str "v"), ("author", Json.str "a")]

/-- Metadata object whose title is the (truthy) number 5. -/
def mFiveTitle : Json := Json.obj [("title", Json.num 5),
  ("description", Json.str "d"), ("version", Json.str "v"), ("author", Json.str "a")]

/-- single_choice question whose `correct_answers` is the empty array. -/
def qEmptyCa : Json := Json.obj [
  ("type", Json.str "single_choice"), ("text", Json.str "Q"),
  ("options", Json.arr [Json.str "a", Json.str "b"]),
  ("correct_answers", Json.arr [])]

/-- single_choice question with two correct answers. -/
def qTwoCa : Json := Json.obj [
  ("type", Json.str "single_choice"), ("text", Json.str "Q"),
  ("options", Json.arr [Json.str "a", Json.str "b"]),
  ("correct_answers", Json.arr [Json.num 0, Json.num 1])]

/-- multiple_choice question with a non-number correct_answers entry. -/
def qBadIndex : Json := Json.obj [
  ("type", Json.str "multiple_choice"), ("text", Json.str "Q"),
  ("options", Json.arr [Json.str "a", Json.str "b"]),
  ("correct_answers", Json.arr [Json.num 1, Json.str "x"])]

/-- true_false question whose single correct answer is the out-of-range 5. -/
def qTfFive : Json := Json.obj [
  ("type", Json.str "true_false"), ("text", Json.str "Q"),
  ("options", Json.arr [Json.str "True", Json.str "False"]),
  ("correct_answers", Json.arr [Json.num 5])]

/-! Helper lemmas about the message strings. -/

lemma string_ext {a b : String} (h : a.data = b.data) : a = b := by
  cases a; cases b; simp_all

lemma qpre_append_cancel {n : Nat} {a b : String} (h : qpre n ++ a = qpre n ++ b) :
    a.data = b.data := by
  have h2 := congrArg String.data h
  rw [String.data_append, String.data_append] at h2
  exact List.append_cancel_left h2

lemma qpre_ne_of_data {n : Nat} {a b : String} (h : a.data ≠ b.data) :
    qpre n ++ a ≠ qpre n ++ b := fun he => h (qpre_append_cancel he)

lemma qpre_ne_of_head {n : Nat} {a b : String} {ca cb : Char}
    (ha : a.data.head? = some ca) (hb : b.data.head? = some cb) (h : ca ≠ cb) :
    qpre n ++ a ≠ qpre n ++ b := by
  apply qpre_ne_of_data
  intro hd
  rw [hd, hb] at ha
  exact h (Option.some.inj ha).symm

lemma head_append {p x : String} {c : Char} {cs : List Char} (hp : p.data = c :: cs) :
    (p ++ x).data.head? = some c := by
  rw [String.data_append, hp]; rfl

lemma vdiag_eq_iff {a b : String} : vdiag a = vdiag b ↔ a = b := by
  simp [vdiag]

lemma vdiag_ne_wdiag (a b : String) : vdiag a ≠ wdiag b := by
  simp [vdiag, wdiag]

/-! Membership characterizations for each checking block. -/

lemma mem_typeCheckDiags {d : Diagnostic} {n : Nat} {tval : Option Json}
    (h : d ∈ typeCheckDiags n tval) :
    d = vdiag (missingTypeMsg n) ∨ d = vdiag (invalidTypeMsg n (jsOptToString tval)) := by
  unfold typeCheckDiags at h
  split at h
  · simp at h; exact Or.inl h
  · split at h
    · simp at h; exact Or.inr h
    · simp at h

lemma mem_textCheckDiags {d : Diagnostic} {n : Nat} {xval : Option Json}
    (h : d ∈ textCheckDiags n xval) :
    d = vdiag (missingTextMsg n) ∨ d = vdiag (textStringMsg n) := by
  unfold textCheckDiags at h
  split at h
  · simp at h; exact Or.inl h
  · split at h
    · simp at h
    · simp at h; exact Or.inr h

lemma mem_optionsBlockDiags {d : Diagnostic} {n : Nat} {tval oval : Option Json}
    (h : d ∈ optionsBlockDiags n tval oval) :
    d = vdiag (missingOptionsMsg n) ∨ d = vdiag (optionsArrayMsg n) ∨
    d = vdiag (tfTwoOptionsMsg n) ∨ d = wdiag (atLeastTwoMsg n (jsOptToString tval)) := by
  unfold optionsBlockDiags at h
  split at h
  · simp at h; tauto
  · split at h
    · split at h
      · split at h <;> simp at h <;> tauto
      · split at h <;> simp at h <;> tauto
    · simp at h; tauto

lemma mem_indexEntryDiags {d : Diagnostic} {n optsLen : Nat} {v : Json}
    (h : d ∈ indexEntryDiags n optsLen v) :
    d = vdiag (invalidIndexMsg n (jsToString v) (toString ((optsLen : Int) - 1))) := by
  unfold indexEntryDiags at h
  split at h <;> simp at h
  exact h

lemma mem_caBlockDiags {d : Diagnostic} {n : Nat} {tval oval caval : Option Json}
    (h : d ∈ caBlockDiags n tval oval caval) :
    d = vdiag (missingCaMsg n) ∨ d = vdiag (caNullMsg n) ∨ d = vdiag (caArrayMsg n) ∨
    d = vdiag (caEmptyMsg n) ∨ d = vdiag (exactlyOneMsg n (jsOptToString tval)) ∨
    (∃ v r, d = vdiag (invalidIndexMsg n v r)) ∨ d = vdiag (tfDomainMsg n) := by
  unfold caBlockDiags at h
  split at h
  · simp at h; tauto
  · split at h
    · simp at h; tauto
    · split at h
      · rename_i ca
        split at h
        · simp at h; tauto
        · rw [List.mem_append] at h
          rcases h with h | h
          · split at h
            · simp at h; tauto
            · simp at h
          · split at h
            · rename_i opts
              rw [List.mem_append] at h
              rcases h with h | h
              · rw [List.mem_flatMap] at h
                obtain ⟨v, _, hd⟩ := h
                have := mem_indexEntryDiags hd
                exact Or.inr (Or.inr (Or.inr (Or.inr (Or.inr (Or.inl
                  ⟨jsToString v, toString ((opts.length : Int) - 1), this⟩)))))
              · split at h
                · split at h
                  · split at h
                    · simp at h
                    · simp at h; tauto
                  · simp at h
                · simp at h
            · simp at h
      · simp at h; tauto

lemma mem_metadataFieldDiags {d : Diagnostic} {f : String} {v : Option Json}
    (h : d ∈ metadataFieldDiags f v) :
    d = vdiag (missingMetaFieldMsg f) ∨ d = vdiag (metaTypeMsg f) := by
  unfold metadataFieldDiags at h
  split at h
  · simp at h; exact Or.inl h
  · split at h
    · simp at h
    · simp at h; exact Or.inr h

lemma mem_validateMetadata {d : Diagnostic} {m : Json}
    (h : d ∈ validateMetadata m) :
    ∃ f ∈ requiredFields, d ∈ metadataFieldDiags f (m.get f) := by
  unfold validateMetadata at h
  rw [List.mem_flatten] at h
  obtain ⟨l, hl, hd⟩ := h
  rw [List.mem_map] at hl
  obtain ⟨f, hf, rfl⟩ := hl
  exact ⟨f, hf, hd⟩

/-! Unfolding lemmas for the blocks under specific hypotheses. -/

lemma typeCheckDiags_eq_nil {n : Nat} {tval : Option Json}
    (h1 : truthyOpt tval = true) (h2 : recognizedOpt tval = true) :
    typeCheckDiags n tval = [] := by
  unfold typeCheckDiags
  rw [h1, h2]
  simp

lemma questionDiags_recognized {n : Nat} {q : Json}
    (h : recognizedOpt (q.get "type") = true) :
    questionDiags n q =
      typeCheckDiags n (q.get "type") ++ textCheckDiags n (q.get "text") ++
      (optionsBlockDiags n (q.get "type") (q.get "options") ++
       caBlockDiags n (q.get "type") (q.get "options") (q.get "correct_answers")) := by
  unfold questionDiags
  rw [h]
  simp

lemma questionDiags_unrecognized {n : Nat} {q : Json}
    (h : recognizedOpt (q.get "type") = false) :
    questionDiags n q =
      typeCheckDiags n (q.get "type") ++ textCheckDiags n (q.get "text") := by
  unfold questionDiags
  rw [h]
  simp

lemma caBlockDiags_shape_pass {n : Nat} {tval oval : Option Json} {ca : List Json}
    (h : ca ≠ []) :
    caBlockDiags n tval oval (some (Json.arr ca)) =
      (if (typeIs tval "single_choice" || typeIs tval "true_false") && ca.length != 1 then
         [vdiag (exactlyOneMsg n (jsOptToString tval))]
       else [])
      ++ (match oval with
          | some (Json.arr opts) =>
            (ca.flatMap (indexEntryDiags n opts.length))
            ++ (if typeIs tval "true_false" then
                  match ca with
                  | [v] => if isNumEq v 0 || isNumEq v 1 then [] else [vdiag (tfDomainMsg n)]
                  | _ => []
                else [])
          | _ => []) := by
  have h0 : (ca.length == 0) = false := by
    cases ca with
    | nil => exact absurd rfl h
    | cons a as => rfl
  unfold caBlockDiags
  simp [truthyOpt, truthy, h0]

lemma head?_append_left {α : Type} (l1 l2 : List α) (h : l1 ≠ []) :
    (l1 ++ l2).head? = l1.head? := by
  cases l1
  · exact absurd rfl h
  · rfl

lemma qpre_ne_head2 {n : Nat} {p x b y : String}
    (hp : p.data ≠ []) (hb : b.data ≠ [])
    (hne : p.data.head? ≠ b.data.head?) :
    qpre n ++ (p ++ x) ≠ qpre n ++ (b ++ y) := by
  intro he
  have hd := qpre_append_cancel he
  rw [String.data_append, String.data_append] at hd
  have h2 := congrArg List.head? hd
  rw [head?_append_left _ _ hp, head?_append_left _ _ hb] at h2
  exact hne h2

lemma mem_caMatchPart {d : Diagnostic} {n : Nat} {tval : Option Json}
    {oval : Option Json} {ca : List Json}
    (h : d ∈ (match oval with
        | some (Json.arr opts) =>
          (ca.flatMap (indexEntryDiags n opts.length))
          ++ (if typeIs tval "true_false" then
                match ca with
                | [v] => if isNumEq v 0 || isNumEq v 1 then [] else [vdiag (tfDomainMsg n)]
                | _ => []
              else [])
        | _ => ([] : List Diagnostic))) :
    (∃ v r, d = vdiag (invalidIndexMsg n v r)) ∨ d = vdiag (tfDomainMsg n) := by
  split at h
  · rw [List.mem_append] at h
    rcases h with h | h
    · rw [List.mem_flatMap] at h
      obtain ⟨v, _, hd⟩ := h
      exact Or.inl ⟨_, _, mem_indexEntryDiags hd⟩
    · split at h
      · split at h
        · split at h
          · simp at h
          · simp at h; exact Or.inr h
        · simp at h
      · simp at h
  · simp at h

/-- Claim C6 (amended: the cardinality rule runs only after the
correct_answers shape checks pass, i.e. the value is a non-empty array):
for a `single_choice` or `true_false` question whose `correct_answers`
is a non-empty array `ca`, the "must have exactly one correct answer"
error is emitted exactly when `ca.length ≠ 1`. -/
theorem C6_theorem (n : Nat) (q : Json) (t : String) (ca : List Json)
    (ht : q.get "type" = some (Json.str t))
    (htv : t = "single_choice" ∨ t = "true_false")
    (hca : q.get "correct_answers" = some (Json.arr ca))
    (hne : ca ≠ []) :
    vdiag (exactlyOneMsg n t) ∈ questionDiags n q ↔ ca.length ≠ 1 := by
  have hrec : recognizedOpt (q.get "type") = true := by
    rw [ht]; rcases htv with rfl | rfl <;> rfl
  have htr : truthyOpt (q.get "type") = true := by
    rw [ht]; rcases htv with rfl | rfl <;> rfl
  have hjs : jsOptToString (q.get "type") = t := by rw [ht]; rfl
  have hcond : (typeIs (q.get "type") "single_choice" ||
      typeIs (q.get "type") "true_false") = true := by
    rw [ht]; rcases htv with rfl | rfl <;> rfl
  rw [questionDiags_recognized hrec, typeCheckDiags_eq_nil htr hrec, hca,
      caBlockDiags_shape_pass hne, hjs, hcond]
  simp only [List.nil_append, Bool.true_and, List.mem_append]
  constructor
  · intro hmem hlen
    rcases hmem with h | h | h | h
    · rcases mem_textCheckDiags h with h | h
      · rw [vdiag_eq_iff] at h
        unfold exactlyOneMsg missingTextMsg at h
        rcases htv with rfl | rfl <;> exact absurd h (qpre_ne_of_data (by decide))
      · rw [vdiag_eq_iff] at h
        unfold exactlyOneMsg textStringMsg at h
        rcases htv with rfl | rfl <;> exact absurd h (qpre_ne_of_data (by decide))
    · rcases mem_optionsBlockDiags h with h | h | h | h
      · rw [vdiag_eq_iff] at h
        unfold exactlyOneMsg missingOptionsMsg at h
        rcases htv with rfl | rfl <;> exact absurd h (qpre_ne_of_data (by decide))
      · rw [vdiag_eq_iff] at h
        unfold exactlyOneMsg optionsArrayMsg at h
        rcases htv with rfl | rfl <;> exact absurd h (qpre_ne_of_data (by decide))
      · rw [vdiag_eq_iff] at h
        unfold exactlyOneMsg tfTwoOptionsMsg at h
        rcases htv with rfl | rfl <;> exact absurd h (qpre_ne_of_data (by decide))
      · exact vdiag_ne_wdiag _ _ h
    · split at h
      · rename_i hcard
        rw [hlen] at hcard
        simp at hcard
      · simp at h
    · rcases mem_caMatchPart h with ⟨v, r, h⟩ | h
      · rw [vdiag_eq_iff] at h
        unfold exactlyOneMsg invalidIndexMsg at h
        rcases htv with rfl | rfl <;>
          exact absurd h (qpre_ne_head2 (by decide) (by decide) (by decide))
      · rw [vdiag_eq_iff] at h
        unfold exactlyOneMsg tfDomainMsg at h
        rcases htv with rfl | rfl <;> exact absurd h (qpre_ne_of_data (by decide))
  · intro hlen
    refine Or.inr (Or.inr (Or.inl ?_))
    have hcard : (ca.length != 1) = true := by
      simpa using hlen
    rw [hcard]
    simp

lemma string_append_left_cancel {p a b : String} (h : p ++ a = p ++ b) : a = b := by
  apply string_ext
  have h2 := congrArg String.data h
  rw [String.data_append, String.data_append] at h2
  exact List.append_cancel_left h2

lemma head_append_of_ne_nil {p x : String} (hp : p.data ≠ []) :
    (p ++ x).data.head? = p.data.head? := by
  rw [String.data_append]
  exact head?_append_left _ _ hp

lemma string_ne_of_head {a b : String} (h : a.data.head? ≠ b.data.head?) : a ≠ b :=
  fun he => h (by rw [he])

lemma qpre_ne_head_right {n : Nat} {a p y : String}
    (hp : p.data ≠ []) (hne : a.data.head? ≠ p.data.head?) :
    qpre n ++ a ≠ qpre n ++ (p ++ y) := by
  intro he
  have hd := qpre_append_cancel he
  rw [String.data_append] at hd
  have h2 := congrArg List.head? hd
  rw [head?_append_left _ _ hp] at h2
  exact hne h2

lemma caBlockDiags_arr_pass {n : Nat} {tval : Option Json} {opts ca : List Json}
    (h : ca ≠ []) :
    caBlockDiags n tval (some (Json.arr opts)) (some (Json.arr ca)) =
      (if (typeIs tval "single_choice" || typeIs tval "true_false") && ca.length != 1 then
         [vdiag (exactlyOneMsg n (jsOptToString tval))]
       else [])
      ++ ((ca.flatMap (indexEntryDiags n opts.length))
          ++ (if typeIs tval "true_false" then
                match ca with
                | [v] => if isNumEq v 0 || isNumEq v 1 then [] else [vdiag (tfDomainMsg n)]
                | _ => []
              else [])) := by
  rw [caBlockDiags_shape_pass h]

lemma tfDomain_not_mem_textCheck (n : Nat) (xval : Option Json) :
    vdiag (tfDomainMsg n) ∉ textCheckDiags n xval := by
  intro h
  rcases mem_textCheckDiags h with h | h <;> rw [vdiag_eq_iff] at h
  · unfold tfDomainMsg missingTextMsg at h
    exact absurd h (qpre_ne_of_data (by decide))
  · unfold tfDomainMsg textStringMsg at h
    exact absurd h (qpre_ne_of_data (by decide))

lemma tfDomain_not_mem_optionsBlock (n : Nat) (tval oval : Option Json) :
    vdiag (tfDomainMsg n) ∉ optionsBlockDiags n tval oval := by
  intro h
  rcases mem_optionsBlockDiags h with h | h | h | h
  · rw [vdiag_eq_iff] at h
    unfold tfDomainMsg missingOptionsMsg at h
    exact absurd h (qpre_ne_of_data (by decide))
  · rw [vdiag_eq_iff] at h
    unfold tfDomainMsg optionsArrayMsg at h
    exact absurd h (qpre_ne_of_data (by decide))
  · rw [vdiag_eq_iff] at h
    unfold tfDomainMsg tfTwoOptionsMsg at h
    exact absurd h (qpre_ne_of_data (by decide))
  · exact vdiag_ne_wdiag _ _ h

lemma tfDomain_ne_invalidIndex (n : Nat) (v r : String) :
    vdiag (tfDomainMsg n) ≠ vdiag (invalidIndexMsg n v r) := by
  rw [vdiag_eq_iff.ne]
  unfold tfDomainMsg invalidIndexMsg
  exact qpre_ne_head_right (by decide) (by decide)

lemma tfDomain_ne_exactlyOne (n : Nat) (t : String) (ht : t = "true_false") :
    vdiag (tfDomainMsg n) ≠ vdiag (exactlyOneMsg n t) := by
  subst ht
  rw [vdiag_eq_iff.ne]
  unfold tfDomainMsg exactlyOneMsg
  exact qpre_ne_of_data (by decide)

lemma tfPartReduce (n : Nat) (v : Json) :
    (match [v] with
     | [w] => if isNumEq w 0 || isNumEq w 1 then [] else [vdiag (tfDomainMsg n)]
     | _ => ([] : List Diagnostic)) =
    (if isNumEq v 0 || isNumEq v 1 then [] else [vdiag (tfDomainMsg n)]) := rfl

/-- Claim C8: for a true_false question whose options is an array and
whose correct_answers is a non-empty array: with exactly one entry `v`,
the "index 0 or 1" error is emitted iff `v` is neither the number 0 nor
the number 1; it is emitted in addition to the range-check error, which
is also present whenever `v` fails the range check; and when the
cardinality check did not pass (length ≠ 1) the domain error is never
emitted. -/
theorem C8_theorem (n : Nat) (q : Json) (opts ca : List Json)
    (ht : q.get "type" = some (Json.str "true_false"))
    (ho : q.get "options" = some (Json.arr opts))
    (hca : q.get "correct_answers" = some (Json.arr ca))
    (hne : ca ≠ []) :
    (∀ v, ca = [v] →
      (vdiag (tfDomainMsg n) ∈ questionDiags n q ↔
        (isNumEq v 0 = false ∧ isNumEq v 1 = false)))
    ∧ (∀ v, ca = [v] → validIndex opts.length v = false →
        vdiag (invalidIndexMsg n (jsToString v) (toString ((opts.length : Int) - 1)))
          ∈ questionDiags n q)
    ∧ (ca.length ≠ 1 → vdiag (tfDomainMsg n) ∉ questionDiags n q) := by
  have hrec : recognizedOpt (q.get "type") = true := by rw [ht]; rfl
  have htr : truthyOpt (q.get "type") = true := by rw [ht]; rfl
  have hjs : jsOptToString (q.get "type") = "true_false" := by rw [ht]; rfl
  have hcond : (typeIs (q.get "type") "single_choice" ||
      typeIs (q.get "type") "true_false") = true := by rw [ht]; rfl
  have htf : typeIs (q.get "type") "true_false" = true := by rw [ht]; rfl
  rw [questionDiags_recognized hrec, typeCheckDiags_eq_nil htr hrec, hca, ho,
      caBlockDiags_arr_pass hne, hjs, hcond, htf]
  simp only [List.nil_append, Bool.true_and, eq_self_iff_true, if_true, List.mem_append]
  refine ⟨?_, ?_, ?_⟩
  · intro v hv
    constructor
    · intro hmem
      rcases hmem with h | h | h | h | h
      · exact absurd h (tfDomain_not_mem_textCheck n _)
      · exact absurd h (tfDomain_not_mem_optionsBlock n _ _)
      · split at h
        · rename_i hc
          rw [hv] at hc
          simp at hc
        · simp at h
      · rw [List.mem_flatMap] at h
        obtain ⟨w, _, hd⟩ := h
        exact absurd (mem_indexEntryDiags hd) (tfDomain_ne_invalidIndex n _ _)
      · rw [hv, tfPartReduce] at h
        split at h
        · simp at h
        · rename_i h01
          simp only [Bool.or_eq_true, not_or, Bool.not_eq_true] at h01
          exact h01
    · rintro ⟨h0, h1⟩
      refine Or.inr (Or.inr (Or.inr (Or.inr ?_)))
      rw [hv, tfPartReduce]
      have h01 : (isNumEq v 0 || isNumEq v 1) = false := by rw [h0, h1]; rfl
      rw [h01]
      simp
  · intro v hv hbad
    refine Or.inr (Or.inr (Or.inr (Or.inl ?_)))
    rw [List.mem_flatMap]
    refine ⟨v, by rw [hv]; simp, ?_⟩
    unfold indexEntryDiags
    rw [hbad]
    simp
  · intro hlen hmem
    rcases hmem with h | h | h | h | h
    · exact tfDomain_not_mem_textCheck n _ h
    · exact tfDomain_not_mem_optionsBlock n _ _ h
    · split at h
      · simp at h
        exact tfDomain_ne_exactlyOne n _ rfl (by rw [h])
      · simp at h
    · rw [List.mem_flatMap] at h
      obtain ⟨w, _, hd⟩ := h
      exact tfDomain_ne_invalidIndex n _ _ (mem_indexEntryDiags hd)
    · split at h
      · exact hlen rfl
      · simp at h

/-- Claim C5: range check per correct_answers entry: an in-range number
entry produces no invalid-index diagnostic in its loop iteration; any
other entry produces exactly one, quoting the entry's rendering
verbatim, and that diagnostic appears in the question's diagnostics. -/
theorem C5_theorem (n : Nat) (q : Json) (t : String) (opts ca : List Json) (v : Json)
    (ht : q.get "type" = some (Json.str t))
    (htv : t = "multiple_choice" ∨ t = "single_choice" ∨ t = "true_false")
    (ho : q.get "options" = some (Json.arr opts))
    (hca : q.get "correct_answers" = some (Json.arr ca))
    (hne : ca ≠ []) (hv : v ∈ ca) :
    ((∃ k : Int, v = Json.num k ∧ 0 ≤ k ∧ k < (opts.length : Int)) →
       indexEntryDiags n opts.length v = [])
    ∧ ((∀ k : Int, v = Json.num k → ¬(0 ≤ k ∧ k < (opts.length : Int))) →
       indexEntryDiags n opts.length v =
         [vdiag (invalidIndexMsg n (jsToString v) (toString ((opts.length : Int) - 1)))]
       ∧ vdiag (invalidIndexMsg n (jsToString v) (toString ((opts.length : Int) - 1)))
           ∈ questionDiags n q) := by
  constructor
  · rintro ⟨k, rfl, hk0, hk1⟩
    unfold indexEntryDiags
    have hvk : validIndex opts.length (Json.num k) = true := by
      unfold validIndex
      simp [hk0, hk1]
    rw [hvk]
    simp
  · intro hbad
    have hvi : validIndex opts.length v = false := by
      unfold validIndex
      cases v <;> try rfl
      rename_i k
      have hk := hbad k rfl
      simp only [not_and, not_lt] at hk
      by_cases h0 : (0 : Int) ≤ k
      · simp [h0, not_lt.mpr (hk h0)]
      · simp [h0]
    have heq : indexEntryDiags n opts.length v =
        [vdiag (invalidIndexMsg n (jsToString v) (toString ((opts.length : Int) - 1)))] := by
      unfold indexEntryDiags
      rw [hvi]
      simp
    refine ⟨heq, ?_⟩
    have hrec : recognizedOpt (q.get "type") = true := by
      rw [ht]; rcases htv with rfl | rfl | rfl <;> rfl
    rw [questionDiags_recognized hrec, hca, ho, caBlockDiags_arr_pass hne]
    apply List.mem_append_right
    apply List.mem_append_right
    apply List.mem_append_right
    apply List.mem_append_left
    rw [List.mem_flatMap]
    exact ⟨v, hv, by rw [heq]; simp⟩

/-- Claim C2 (corrected: the options/correct_answers checks do not run
at all for an unrecognized type): when `type` is present but
unrecognized, the question's diagnostics are exactly the invalid-type
error followed by the text-check diagnostics, and none of the
options/correct_answers presence or shape diagnostics are emitted. -/
theorem C2_theorem (n : Nat) (q : Json)
    (h1 : truthyOpt (q.get "type") = true)
    (h2 : recognizedOpt (q.get "type") = false) :
    questionDiags n q =
      vdiag (invalidTypeMsg n (jsOptToString (q.get "type")))
        :: textCheckDiags n (q.get "text")
    ∧ vdiag (missingOptionsMsg n) ∉ questionDiags n q
    ∧ vdiag (optionsArrayMsg n) ∉ questionDiags n q
    ∧ vdiag (missingCaMsg n) ∉ questionDiags n q
    ∧ vdiag (caArrayMsg n) ∉ questionDiags n q
    ∧ vdiag (caEmptyMsg n) ∉ questionDiags n q := by
  have htc : typeCheckDiags n (q.get "type") =
      [vdiag (invalidTypeMsg n (jsOptToString (q.get "type")))] := by
    unfold typeCheckDiags
    rw [h1, h2]
    simp
  have hq : questionDiags n q =
      vdiag (invalidTypeMsg n (jsOptToString (q.get "type")))
        :: textCheckDiags n (q.get "text") := by
    rw [questionDiags_unrecognized h2, htc]
    rfl
  refine ⟨hq, ?_, ?_, ?_, ?_, ?_⟩ <;>
  · rw [hq]
    intro hmem
    rcases List.mem_cons.mp hmem with h | h
    · rw [vdiag_eq_iff] at h
      simp only [missingOptionsMsg, optionsArrayMsg, missingCaMsg, caArrayMsg,
        caEmptyMsg, invalidTypeMsg] at h
      exact absurd h (qpre_ne_head_right (by decide) (by decide))
    · rcases mem_textCheckDiags h with h | h <;> rw [vdiag_eq_iff] at h
      · simp only [missingOptionsMsg, optionsArrayMsg, missingCaMsg, caArrayMsg,
          caEmptyMsg, missingTextMsg] at h
        exact absurd h (qpre_ne_of_data (by decide))
      · simp only [missingOptionsMsg, optionsArrayMsg, missingCaMsg, caArrayMsg,
          caEmptyMsg, textStringMsg] at h
        exact absurd h (qpre_ne_of_data (by decide))

lemma missingMeta_ne_missingMeta {f g : String} (h : f ≠ g) :
    missingMetaFieldMsg f ≠ missingMetaFieldMsg g := by
  unfold missingMetaFieldMsg
  intro he
  exact h (string_append_left_cancel he)

lemma missingMeta_ne_metaType (f g : String) :
    missingMetaFieldMsg f ≠ metaTypeMsg g := by
  unfold missingMetaFieldMsg metaTypeMsg
  apply string_ne_of_head
  have hg : ("metadata." ++ g).data ≠ [] := by
    rw [String.data_append]
    exact List.append_ne_nil_of_left_ne_nil (by decide) _
  rw [head_append_of_ne_nil (show ("Missing required property: metadata.").data ≠ [] by decide),
      head_append_of_ne_nil hg,
      head_append_of_ne_nil (show ("metadata.").data ≠ [] by decide)]
  decide

/-- Claim C3 (amended: only truthy non-string values get the type
diagnostic; falsy values such as 0, false or "" get the missing-property
diagnostic instead): for each required metadata field holding a truthy
non-string value, validation emits `metadata.<field> must be a string`
and never the missing-property diagnostic for that field. -/
theorem C3_theorem (m : Json) (f : String)
    (hf : f ∈ requiredFields)
    (htr : truthyOpt (m.get f) = true)
    (hns : ∀ s, m.get f ≠ some (Json.str s)) :
    vdiag (metaTypeMsg f) ∈ validateMetadata m
    ∧ vdiag (missingMetaFieldMsg f) ∉ validateMetadata m := by
  have hfd : metadataFieldDiags f (m.get f) = [vdiag (metaTypeMsg f)] := by
    unfold metadataFieldDiags
    rw [htr]
    simp only [Bool.true_eq_false, if_false]
  constructor
  · unfold validateMetadata
    rw [List.mem_flatten]
    refine ⟨[vdiag (metaTypeMsg f)], ?_, by simp⟩
    rw [List.mem_map]
    exact ⟨f, hf, by rw [hfd]⟩
  · intro hmem
    obtain ⟨g, hg, hd⟩ := mem_validateMetadata hmem
    by_cases hgf : g = f
    · subst hgf
      rw [hfd, List.mem_singleton, vdiag_eq_iff] at hd
      exact missingMeta_ne_metaType g g hd
    · rcases mem_metadataFieldDiags hd with h | h <;> rw [vdiag_eq_iff] at h
      · exact missingMeta_ne_missingMeta (Ne.symm hgf) h
      · exact missingMeta_ne_metaType f g h

/-- Claim C1 (code bug): with `correct_answers: null`, the validator
emits the missing-property diagnostic rather than the "cannot be null"
diagnostic: `!question.correct_answers` is true for `null`, so the falsy
check fires first and the dedicated null branch is unreachable. -/
theorem C1_theorem :
    qNullCa.get "correct_answers" = some Json.null
    ∧ questionDiags 1 qNullCa = [vdiag (missingCaMsg 1)]
    ∧ vdiag (caNullMsg 1) ∉ questionDiags 1 qNullCa :=
  ⟨rfl, by decide, by decide⟩

/-- Claim C2 counterexample: a question with present but unrecognized
type `essay` and no options/correct_answers fields produces only the
invalid-type diagnostic — the missing-property diagnostics for options
and correct_answers that the claim promises are not emitted. -/
theorem C2_counterexample :
    truthyOpt (qEssay.get "type") = true
    ∧ recognizedOpt (qEssay.get "type") = false
    ∧ qEssay.get "options" = none
    ∧ qEssay.get "correct_answers" = none
    ∧ vdiag (missingOptionsMsg 1) ∉ questionDiags 1 qEssay
    ∧ vdiag (missingCaMsg 1) ∉ questionDiags 1 qEssay
    ∧ questionDiags 1 qEssay = [vdiag (invalidTypeMsg 1 "essay")] :=
  ⟨rfl, rfl, rfl, rfl, by decide, by decide, by decide⟩

/-- Claim C2 witness: the corrected statement applied to the concrete
`essay` question. -/
theorem C2_witness :
    questionDiags 1 qEssay =
      vdiag (invalidTypeMsg 1 (jsOptToString (qEssay.get "type")))
        :: textCheckDiags 1 (qEssay.get "text")
    ∧ vdiag (missingOptionsMsg 1) ∉ questionDiags 1 qEssay
    ∧ vdiag (optionsArrayMsg 1) ∉ questionDiags 1 qEssay
    ∧ vdiag (missingCaMsg 1) ∉ questionDiags 1 qEssay
    ∧ vdiag (caArrayMsg 1) ∉ questionDiags 1 qEssay
    ∧ vdiag (caEmptyMsg 1) ∉ questionDiags 1 qEssay :=
  C2_theorem 1 qEssay rfl rfl

/-- Claim C3 counterexample: `title: 0` is present but not a string, yet
validation emits the missing-property diagnostic (0 is falsy), not the
`must be a string` diagnostic the claim promises. -/
theorem C3_counterexample :
    mZeroTitle.get "title" = some (Json.num 0)
    ∧ truthyOpt (mZeroTitle.get "title") = false
    ∧ validateMetadata mZeroTitle = [vdiag (missingMetaFieldMsg "title")]
    ∧ vdiag (metaTypeMsg "title") ∉ validateMetadata mZeroTitle :=
  ⟨rfl, rfl, by decide, by decide⟩

/-- Claim C3 witness: the corrected statement applied to a metadata
object whose title is the truthy non-string 5. -/
theorem C3_witness :
    vdiag (metaTypeMsg "title") ∈ validateMetadata mFiveTitle
    ∧ vdiag (missingMetaFieldMsg "title") ∉ validateMetadata mFiveTitle :=
  C3_theorem mFiveTitle "title" (by simp [requiredFields]) rfl
    (fun s h => by
      rw [show mFiveTitle.get "title" = some (Json.num 5) from rfl] at h
      exact Json.noConfusion (Option.some.inj h))

/-- Claim C4: a parse failure produces exactly one diagnostic: severity
Error, source quiz-validator, message `Invalid JSON: ` followed by the
parser's message; no structural, rule-engine or schema diagnostics. -/
theorem C4_theorem (schemaValidate : Option (Json → List SchemaError)) (msg : String) :
    validateQuizFile schemaValidate (Except.error msg) =
      [⟨"Invalid JSON: " ++ msg, Severity.error, "quiz-validator"⟩] := rfl

/-- Claim C5 witness: the range-check statement applied to the concrete
multiple_choice question with entry `"x"` (not a number). -/
theorem C5_witness :
    indexEntryDiags 1 (List.length [Json.str "a", Json.str "b"]) (Json.str "x") =
      [vdiag (invalidIndexMsg 1 (jsToString (Json.str "x"))
        (toString (((List.length [Json.str "a", Json.str "b"] : Nat) : Int) - 1)))]
    ∧ vdiag (invalidIndexMsg 1 (jsToString (Json.str "x"))
        (toString (((List.length [Json.str "a", Json.str "b"] : Nat) : Int) - 1)))
        ∈ questionDiags 1 qBadIndex :=
  (C5_theorem 1 qBadIndex "multiple_choice" [Json.str "a", Json.str "b"]
    [Json.num 1, Json.str "x"] (Json.str "x") rfl (Or.inl rfl) rfl rfl
    (List.cons_ne_nil _ _) (by simp)).2 (fun k hk => Json.noConfusion hk)

/-- Claim C6 counterexample: a single_choice question with empty
correct_answers has `len ≠ 1`, yet the "exactly one correct answer"
error is not produced — the shape check "cannot be empty" fires
instead. -/
theorem C6_counterexample :
    qEmptyCa.get "type" = some (Json.str "single_choice")
    ∧ qEmptyCa.get "correct_answers" = some (Json.arr [])
    ∧ ([] : List Json).length ≠ 1
    ∧ vdiag (exactlyOneMsg 1 "single_choice") ∉ questionDiags 1 qEmptyCa
    ∧ questionDiags 1 qEmptyCa = [vdiag (caEmptyMsg 1)] :=
  ⟨rfl, rfl, by decide, by decide, by decide⟩

/-- Claim C6 witness: the cardinality statement applied to a
single_choice question with two correct answers. -/
theorem C6_witness :
    vdiag (exactlyOneMsg 1 "single_choice") ∈ questionDiags 1 qTwoCa ↔
      ([Json.num 0, Json.num 1] : List Json).length ≠ 1 :=
  C6_theorem 1 qTwoCa "single_choice" [Json.num 0, Json.num 1] rfl (Or.inl rfl) rfl
    (List.cons_ne_nil _ _)

/-- Claim C7: the minimal valid document — metadata with the four string
fields and one multiple_choice question with 4 options and
`correct_answers: [1]` — produces zero diagnostics when no schema is
available. -/
theorem C7_theorem : validateQuizFile none (Except.ok docMinimal) = [] := by decide

/-- Claim C8 witness: the true_false domain statement applied to the
concrete question with `correct_answers: [5]`. -/
theorem C8_witness :
    (∀ v, ([Json.num 5] : List Json) = [v] →
      (vdiag (tfDomainMsg 1) ∈ questionDiags 1 qTfFive ↔
        (isNumEq v 0 = false ∧ isNumEq v 1 = false)))
    ∧ (∀ v, ([Json.num 5] : List Json) = [v] →
        validIndex (List.length [Json.str "True", Json.str "False"]) v = false →
        vdiag (invalidIndexMsg 1 (jsToString v)
          (toString (((List.length [Json.str "True", Json.str "False"] : Nat) : Int) - 1)))
          ∈ questionDiags 1 qTfFive)
    ∧ (([Json.num 5] : List Json).length ≠ 1 →
        vdiag (tfDomainMsg 1) ∉ questionDiags 1 qTfFive) :=
  C8_theorem 1 qTfFive [Json.str "True", Json.str "False"] [Json.num 5] rfl rfl rfl
    (List.cons_ne_nil _ _)

/-- Claim C9: validation is deterministic — the same parse result and
the same schema availability always give the same diagnostic list: the
validator is a pure function of its inputs. -/
theorem C9_theorem (schemaValidate : Option (Json → List SchemaError))
    (p1 p2 : Except String Json) (h : p1 = p2) :
    validateQuizFile schemaValidate p1 = validateQuizFile schemaValidate p2 := by
  rw [h]

/-- Claim C9 witness: the determinism statement applied to a concrete
parse failure. -/
theorem C9_witness :
    validateQuizFile none (Except.error "Unexpected token") =
      validateQuizFile none (Except.error "Unexpected token") :=
  C9_theorem none (Except.error "Unexpected token") (Except.error "Unexpected token") rfl

/-- Claim C10: a document with valid metadata and an empty questions
array produces zero diagnostics: an empty quiz is valid, and no
minimum-question-count rule exists in the pipeline. -/
theorem C10_theorem : validateQuizFile none (Except.ok docEmptyQuestions) = [] := by decide
